import Mathlib

/-!
Verification of the table-of-contents component and the heading-id helper
of the technical blog platform.

The component (`components/table-of-contents.tsx`) scans the document for
`h2`/`h3` elements on mount, tracks the currently visible heading through an
intersection observer, renders an indented navigation list, and smooth-scrolls
to a heading on click.  The MDX helper `slugify` produces heading ids.

The DOM is modelled as a list of elements in document order.  An element
carries its tag, its `id` property (the empty string when no id attribute is
assigned, as in the DOM), and its `textContent` (`none` models `null`).
-/

namespace TechnicalBlog

inductive Tag where
  | h1
  | h2
  | h3
  | other
deriving DecidableEq

structure Element where
  tag : Tag
  id : String
  textContent : Option String
deriving DecidableEq

/-- Whether a tag is a heading tag (`h1`..`h3` in this model). -/
def Tag.isHeading : Tag → Bool
  | .h1 => true
  | .h2 => true
  | .h3 => true
  | .other => false

/-- Numeric level of a tag, as computed by the source's
`parseInt(element.tagName.charAt(1))`; only ever applied to `h2`/`h3`
elements (the value for `other` is irrelevant). -/
def Tag.level : Tag → Int
  | .h1 => 1
  | .h2 => 2
  | .h3 => 3
  | .other => 0

/-- Embeds `document.querySelectorAll('h2, h3')`: the `h2` and `h3` elements
of the document, in document order. -/
def querySelectorH2H3 (doc : List Element) : List Element :=
  doc.filter (fun e => e.tag == Tag.h2 || e.tag == Tag.h3)

/-- The `TocItem` interface of the source. -/
structure TocItem where
  id : String
  text : String
  level : Int
deriving DecidableEq

/-- One step of the source's `elements.map((element) => ({ id: element.id,
text: element.textContent || '', level: parseInt(element.tagName.charAt(1)) }))`. -/
def toTocItem (e : Element) : TocItem :=
  { id := e.id, text := e.textContent.getD "", level := e.tag.level }

/-- The mount-time heading extraction of the `useEffect` body. -/
def extractHeadings (doc : List Element) : List TocItem :=
  (querySelectorH2H3 doc).map toTocItem

/-! Intersection-observer model.  A visibility report delivered to the
callback is a batch of entries, each naming a target element and whether it
is intersecting. -/

structure ObsEntry where
  target : Element
  isIntersecting : Bool
deriving DecidableEq

/-- The observer callback body for a single entry:
`if (entry.isIntersecting) setActiveId(entry.target.id)`. -/
def processEntry (activeId : String) (entry : ObsEntry) : String :=
  if entry.isIntersecting then entry.target.id else activeId

/-- The observer callback: `entries.forEach(...)` in delivery order. -/
def processBatch (activeId : String) (entries : List ObsEntry) : String :=
  entries.foldl processEntry activeId

/-- The last intersecting entry of a batch, if any. -/
def lastIntersecting (entries : List ObsEntry) : Option ObsEntry :=
  (entries.filter (fun e => e.isIntersecting)).getLast?

/-- Observer resource state: which elements are being observed and whether
the observer is still connected.  `observer.disconnect()` empties the target
set and disconnects, after which the callback is never invoked again (the
contract of `IntersectionObserver.disconnect`). -/
structure ObserverState where
  observed : List Element
  connected : Bool
deriving DecidableEq

/-- The component state owned by `TableOfContents`: the two `useState`
fields plus the observer resource created by the mount effect. -/
structure TocState where
  headings : List TocItem
  activeId : String
  observer : ObserverState
deriving DecidableEq

/-- The mount effect: extract headings once, create the observer, observe
every selected element.  `activeId` starts as `''`. -/
def mount (doc : List Element) : TocState :=
  { headings := extractHeadings doc
    activeId := ""
    observer := { observed := querySelectorH2H3 doc, connected := true } }

/-- Delivery of one visibility report: the callback runs only while the
observer is connected; it updates `activeId` and nothing else. -/
def deliver (st : TocState) (entries : List ObsEntry) : TocState :=
  if st.observer.connected then
    { st with activeId := processBatch st.activeId entries }
  else st

/-- The effect cleanup, run on every exit path of the mount:
`observer.disconnect()` releases all observation targets and disposes the
observer. -/
def unmount (st : TocState) : TocState :=
  { st with observer := { observed := [], connected := false } }

/-- A sequence of visibility reports delivered one after the other. -/
def runReports (st : TocState) (reports : List (List ObsEntry)) : TocState :=
  reports.foldl deliver st

/-! Click handling. -/

/-- Embeds `document.getElementById`: the first element whose id is the
argument; per the DOM, the empty string never matches (an element with no id
attribute has no ID). -/
def getElementById (doc : List Element) (targetId : String) : Option Element :=
  if targetId == "" then none else doc.find? (fun e => e.id == targetId)

/-- A recorded `scrollIntoView` invocation with its options. -/
structure ScrollCall where
  target : Element
  smooth : Bool
  block : String
deriving DecidableEq

/-- Observable outcome of activating a table-of-contents entry. -/
structure ClickResult where
  defaultPrevented : Bool
  scrollCalls : List ScrollCall
deriving DecidableEq

/-- The `onClick` handler: `e.preventDefault()` unconditionally, then
`document.getElementById(heading.id)?.scrollIntoView({ behavior: 'smooth',
block: 'start' })` — the optional chain makes a missing element a no-op. -/
def handleClick (doc : List Element) (targetId : String) : ClickResult :=
  { defaultPrevented := true
    scrollCalls :=
      match getElementById doc targetId with
      | some el => [{ target := el, smooth := true, block := "start" }]
      | none => [] }

/-! Rendering. -/

/-- A rendered list entry.  `paddingLeft` is measured in hundredths of a
rem, so the source's `(heading.level - 2) * 0.75rem` becomes
`(level - 2) * 75`. -/
structure NavEntry where
  id : String
  text : String
  level : Int
  paddingLeft : Int
  active : Bool
deriving DecidableEq

/-- Rendering of one `<li>`: indentation from the level, the active style
exactly when the entry's id equals `activeId`. -/
def renderEntry (activeId : String) (h : TocItem) : NavEntry :=
  { id := h.id
    text := h.text
    level := h.level
    paddingLeft := (h.level - 2) * 75
    active := h.id == activeId }

/-- The component's render: `if (headings.length === 0) return null`,
otherwise the list of entries in order. -/
def render (headings : List TocItem) (activeId : String) : Option (List NavEntry) :=
  if headings.length = 0 then none
  else some (headings.map (renderEntry activeId))

/-! The `slugify` helper of the MDX components file, embedded over lists of
characters.  `text.toLowerCase()` is `Char.toLower` character-wise;
`.replace(/[^a-z0-9]+/g, '-')` collapses every maximal run of characters
outside `[a-z0-9]` to a single hyphen; `.replace(/(^-|-$)/g, '')` removes
the leading hyphen and the trailing hyphen (at most one of each can exist
after the collapse). -/

/-- Membership in the regex class `[a-z0-9]`. -/
def jsIsAlnumLower (c : Char) : Bool :=
  (97 ≤ c.toNat && c.toNat ≤ 122) || (48 ≤ c.toNat && c.toNat ≤ 57)

/-- Collapse of maximal runs of non-`[a-z0-9]` characters to one hyphen.
The flag records whether we are inside a run already replaced. -/
def collapseAux : List Char → Bool → List Char
  | [], _ => []
  | c :: cs, inRun =>
    if jsIsAlnumLower c then c :: collapseAux cs false
    else if inRun then collapseAux cs true
    else '-' :: collapseAux cs true

/-- The first `replace` of `slugify`. -/
def collapseNonAlnum (l : List Char) : List Char := collapseAux l false

/-- Removal of a single leading hyphen (the `^-` alternative). -/
def dropLeadDash : List Char → List Char
  | [] => []
  | c :: t => if c == '-' then t else c :: t

/-- Removal of a single trailing hyphen (the `-$` alternative). -/
def stripTrail : List Char → List Char
  | [] => []
  | [c] => if c == '-' then [] else [c]
  | c :: d :: t => c :: stripTrail (d :: t)

/-- The second `replace` of `slugify`: `/(^-|-$)/g` removes the leading
hyphen, if any, and the trailing hyphen, if any. -/
def stripEnds (l : List Char) : List Char := stripTrail (dropLeadDash l)

/-- The `slugify` function of the source. -/
def slugify (s : List Char) : List Char :=
  stripEnds (collapseNonAlnum (s.map Char.toLower))

/-- A character allowed in a slug: lowercase ASCII letter, digit, or hyphen. -/
def isSlugChar (c : Char) : Bool := jsIsAlnumLower c || c == '-'

/-- The list does not start with a hyphen. -/
def headND : List Char → Bool
  | [] => true
  | c :: _ => !(c == '-')

/-- The list does not end with a hyphen. -/
def lastND : List Char → Bool
  | [] => true
  | [c] => !(c == '-')
  | _ :: d :: t => lastND (d :: t)

/-- No two adjacent hyphens anywhere in the list. -/
def noDD : List Char → Bool
  | [] => true
  | c :: t => (!(c == '-') || headND t) && noDD t

/-- Well-formed slug: only slug characters, single hyphens, and no hyphen
at either end. -/
def isSlug (l : List Char) : Bool :=
  l.all isSlugChar && noDD l && headND l && lastND l

/-! Concrete inputs used by witnesses and the counterexample. -/

/-- Demo document: a title, two identified headings, a paragraph. -/
def docDemo : List Element :=
  [ { tag := Tag.h1, id := "title", textContent := some "Title" }
  , { tag := Tag.h2, id := "section-2", textContent := some "Section 2" }
  , { tag := Tag.other, id := "", textContent := some "prose" }
  , { tag := Tag.h3, id := "section-3", textContent := some "Section 3" } ]

/-- Demo document restricted to the permitted heading levels. -/
def docPermitted : List Element :=
  [ { tag := Tag.h2, id := "section-2", textContent := some "Section 2" }
  , { tag := Tag.other, id := "", textContent := some "prose" }
  , { tag := Tag.h3, id := "section-3", textContent := some "Section 3" } ]

/-- Document with a single `h2` heading that has no assigned id. -/
def docNoId : List Element :=
  [ { tag := Tag.h2, id := "", textContent := some "Intro" } ]

/-- Document with no heading elements at all. -/
def docNoHeadings : List Element :=
  [ { tag := Tag.other, id := "x", textContent := some "just prose" } ]

/-! Helper lemmas shared by several theorems. -/

/-- Under the restriction to the permitted levels, the `h2, h3` selector
selects exactly the heading elements. -/
theorem querySelector_eq_filter_isHeading (doc : List Element)
    (hlev : ∀ e ∈ doc, e.tag.isHeading = true → e.tag = Tag.h2 ∨ e.tag = Tag.h3) :
    querySelectorH2H3 doc = doc.filter (fun e => e.tag.isHeading) := by
  unfold querySelectorH2H3
  apply List.filter_congr
  intro e he
  cases htag : e.tag with
  | h1 =>
    rcases hlev e he (by rw [htag]; rfl) with h2 | h3
    · rw [htag] at h2; cases h2
    · rw [htag] at h3; cases h3
  | h2 => rfl
  | h3 => rfl
  | other => rfl

/-- Delivery of a report never changes the `headings` field. -/
theorem deliver_headings (st : TocState) (entries : List ObsEntry) :
    (deliver st entries).headings = st.headings := by
  unfold deliver
  split <;> rfl

/-- A whole sequence of reports never changes the `headings` field. -/
theorem runReports_headings (reports : List (List ObsEntry)) (st : TocState) :
    (runReports st reports).headings = st.headings := by
  induction reports generalizing st with
  | nil => rfl
  | cons r rs ih =>
    show (runReports (deliver st r) rs).headings = st.headings
    rw [ih, deliver_headings]

/-- A disconnected observer swallows reports: `deliver` is the identity. -/
theorem deliver_of_disconnected (st : TocState) (entries : List ObsEntry)
    (h : st.observer.connected = false) : deliver st entries = st := by
  unfold deliver
  rw [h]
  simp

/-! Claim theorems. -/

/-- C1: for every document whose heading elements are restricted to the
permitted levels h2 and h3, each bearing a unique nonempty identifier, the
mount-time extraction produces exactly one entry per heading element, in
document order, with id, text and level taken from the element. -/
theorem C1_extraction_complete (doc : List Element)
    (hlev : ∀ e ∈ doc, e.tag.isHeading = true → e.tag = Tag.h2 ∨ e.tag = Tag.h3)
    (hid : ∀ e ∈ doc, e.tag.isHeading = true → e.id ≠ "")
    (huniq : ((doc.filter (fun e => e.tag.isHeading)).map Element.id).Nodup) :
    (extractHeadings doc).length = (doc.filter (fun e => e.tag.isHeading)).length ∧
    extractHeadings doc = (doc.filter (fun e => e.tag.isHeading)).map toTocItem := by
  have hsel := querySelector_eq_filter_isHeading doc hlev
  constructor
  · unfold extractHeadings
    rw [hsel, List.length_map]
  · unfold extractHeadings
    rw [hsel]

/-- Witness for C1 on the demo document with only permitted heading levels. -/
theorem C1_extraction_complete_witness :
    (extractHeadings docPermitted).length
      = (docPermitted.filter (fun e => e.tag.isHeading)).length ∧
    extractHeadings docPermitted
      = (docPermitted.filter (fun e => e.tag.isHeading)).map toTocItem :=
  C1_extraction_complete docPermitted (by decide) (by decide) (by decide)

/-- C2: processing a batch of visibility reports in delivery order sets
`activeId` to the id of the last intersecting entry, leaving it at its prior
value when no entry intersects; in particular a report naming "section-2" as
intersecting makes `activeId` "section-2", and a subsequent report naming
"section-3" transitions it to "section-3". -/
theorem C2_last_intersecting_wins :
    (∀ (a : String) (entries : List ObsEntry),
      processBatch a entries =
        match lastIntersecting entries with
        | some e => e.target.id
        | none => a) ∧
    (∀ a : String,
      processBatch a
          [{ target := { tag := Tag.h2, id := "section-2", textContent := some "Section 2" },
             isIntersecting := true }] = "section-2" ∧
      processBatch "section-2"
          [{ target := { tag := Tag.h3, id := "section-3", textContent := some "Section 3" },
             isIntersecting := true }] = "section-3") := by
  constructor
  · intro a entries
    induction entries generalizing a with
    | nil => rfl
    | cons e es ih =>
      show processBatch (processEntry a e) es = _
      rw [ih]
      unfold lastIntersecting processEntry
      by_cases hi : e.isIntersecting
      · rw [List.filter_cons_of_pos hi, if_pos hi]
        cases hf : es.filter (fun x => x.isIntersecting) with
        | nil => simp
        | cons x xs =>
          rw [List.getLast?_cons_cons]
          cases hg : (x :: xs).getLast? with
          | none => rw [List.getLast?_eq_none_iff] at hg; cases hg
          | some y => rfl
      · rw [List.filter_cons_of_neg (by simpa using hi), if_neg hi]
  · intro a
    exact ⟨rfl, rfl⟩

/-- C3: unmounting releases every registered observation and disposes the
observer, and afterwards no visibility report, however long the sequence,
changes the state — in particular `activeId` is never updated again. -/
theorem C3_unmount_releases_observations :
    ∀ (st : TocState) (reports : List (List ObsEntry)),
      (unmount st).observer.observed = [] ∧
      (unmount st).observer.connected = false ∧
      runReports (unmount st) reports = unmount st := by
  intro st reports
  refine ⟨rfl, rfl, ?_⟩
  induction reports with
  | nil => rfl
  | cons r rs ih =>
    show runReports (deliver (unmount st) r) rs = unmount st
    rw [deliver_of_disconnected _ _ rfl, ih]

/-- C4: activating an entry whose target id is present in the document
suppresses the default anchor navigation and performs exactly one smooth
scroll-to-target invocation, whose target is the element found under that
id. -/
theorem C4_activation_scrolls_once (doc : List Element) (targetId : String)
    (el : Element) (h : getElementById doc targetId = some el) :
    (handleClick doc targetId).defaultPrevented = true ∧
    (handleClick doc targetId).scrollCalls
      = [{ target := el, smooth := true, block := "start" }] ∧
    el.id = targetId := by
  refine ⟨rfl, ?_, ?_⟩
  · unfold handleClick
    rw [h]
  · unfold getElementById at h
    by_cases he : targetId == ""
    · rw [if_pos he] at h; cases h
    · rw [if_neg he] at h
      have hp := List.find?_some h
      simpa using hp

/-- Witness for C4: clicking the "section-2" entry over the demo document. -/
theorem C4_activation_scrolls_once_witness :
    (handleClick docDemo "section-2").defaultPrevented = true ∧
    (handleClick docDemo "section-2").scrollCalls
      = [{ target := { tag := Tag.h2, id := "section-2", textContent := some "Section 2" },
           smooth := true, block := "start" }] ∧
    ({ tag := Tag.h2, id := "section-2", textContent := some "Section 2" } : Element).id
      = "section-2" :=
  C4_activation_scrolls_once docDemo "section-2"
    { tag := Tag.h2, id := "section-2", textContent := some "Section 2" } (by decide)

/-- C5: activating an entry whose target id is not present in the document
is a silent no-op: the handler is a total function (nothing is thrown) and
it performs no scroll invocation. -/
theorem C5_stale_target_noop (doc : List Element) (targetId : String)
    (h : ∀ e ∈ doc, e.id ≠ targetId) :
    (handleClick doc targetId).scrollCalls = [] ∧
    handleClick doc targetId = { defaultPrevented := true, scrollCalls := [] } := by
  have hnone : getElementById doc targetId = none := by
    unfold getElementById
    by_cases he : targetId == ""
    · rw [if_pos he]
    · rw [if_neg he]
      rw [List.find?_eq_none]
      intro e he'
      simpa using h e he'
  constructor
  · unfold handleClick
    rw [hnone]
  · unfold handleClick
    rw [hnone]

/-- Witness for C5: clicking a stale entry whose id is absent from the
demo document. -/
theorem C5_stale_target_noop_witness :
    (handleClick docDemo "gone").scrollCalls = [] ∧
    handleClick docDemo "gone" = { defaultPrevented := true, scrollCalls := [] } :=
  C5_stale_target_noop docDemo "gone" (by decide)

/-- C6: for a document with zero matching heading elements the component
renders nothing at all — `render` returns `none`, not an empty shell, and
being a total function it raises no error. -/
theorem C6_empty_headings_renders_nothing (doc : List Element) (activeId : String)
    (h : querySelectorH2H3 doc = []) :
    render (extractHeadings doc) activeId = none := by
  unfold extractHeadings
  rw [h]
  rfl

/-- Witness for C6 on a document containing only non-heading elements. -/
theorem C6_empty_headings_renders_nothing_witness :
    render (extractHeadings docNoHeadings) "" = none :=
  C6_empty_headings_renders_nothing docNoHeadings "" (by decide)

/-- C9: `headings` is populated exactly once by the mount-time scan and no
later visibility report revises it — every `deliver` step, and hence any
sequence of reports, leaves `headings` unchanged (in this model the
component is the only writer of either field). -/
theorem C9_headings_stable_after_mount :
    ∀ (doc : List Element) (reports : List (List ObsEntry)),
      (mount doc).headings = extractHeadings doc ∧
      (runReports (mount doc) reports).headings = extractHeadings doc ∧
      ∀ (st : TocState) (entries : List ObsEntry),
        (deliver st entries).headings = st.headings := by
  intro doc reports
  refine ⟨?_, ?_, fun st entries => deliver_headings st entries⟩
  · unfold mount
    rfl
  · rw [runReports_headings]
    unfold mount
    rfl

/-- C7 counterexample: the extraction does not skip headings that lack an
assigned identifier.  On a document whose single `h2` has no id, the
produced `headings` sequence is not empty — it contains an entry for that
heading, carrying the empty identifier. -/
theorem C7_counterexample :
    extractHeadings docNoId = [{ id := "", text := "Intro", level := 2 }] ∧
    extractHeadings docNoId ≠ [] := by
  constructor
  · rfl
  · intro h
    cases h

/-- C7 amended: heading elements of the permitted levels that lack a
pre-assigned identifier are not skipped by the extraction — each one
contributes an entry to the `headings` sequence, with the empty string as
its identifier. -/
theorem C7_idless_headings_included (doc : List Element) (e : Element)
    (he : e ∈ doc) (htag : e.tag = Tag.h2 ∨ e.tag = Tag.h3) (hid : e.id = "") :
    toTocItem e ∈ extractHeadings doc ∧ (toTocItem e).id = "" := by
  constructor
  · unfold extractHeadings
    apply List.mem_map_of_mem
    unfold querySelectorH2H3
    rw [List.mem_filter]
    refine ⟨he, ?_⟩
    rcases htag with h | h <;> rw [h] <;> rfl
  · unfold toTocItem
    simpa using hid

/-- Witness for the amended C7 on the document whose single `h2` lacks an
id. -/
theorem C7_idless_headings_included_witness :
    toTocItem { tag := Tag.h2, id := "", textContent := some "Intro" }
        ∈ extractHeadings docNoId ∧
    (toTocItem { tag := Tag.h2, id := "", textContent := some "Intro" }).id = "" :=
  C7_idless_headings_included docNoId
    { tag := Tag.h2, id := "", textContent := some "Intro" }
    (by decide) (Or.inl rfl) rfl

/-- C8: every rendered entry is indented by `(level - 2) * 0.75rem`
(recorded here in hundredths of a rem), which is proportional to the
distance from the minimum permitted level 2; hence a level-3 entry is
indented strictly more than a level-2 entry, and entries of equal level are
indented equally. -/
theorem C8_indentation_proportional (headings : List TocItem) (activeId : String)
    (out : List NavEntry) (h : render headings activeId = some out) :
    (∀ en ∈ out, en.paddingLeft = (en.level - 2) * 75) ∧
    (∀ e1 ∈ out, ∀ e2 ∈ out,
      e1.level = 3 → e2.level = 2 → e1.paddingLeft > e2.paddingLeft) ∧
    (∀ e1 ∈ out, ∀ e2 ∈ out, e1.level = e2.level → e1.paddingLeft = e2.paddingLeft) := by
  have hout : out = headings.map (renderEntry activeId) := by
    unfold render at h
    by_cases hl : headings.length = 0
    · rw [if_pos hl] at h; cases h
    · rw [if_neg hl] at h
      exact (Option.some_injective _ h).symm
  have hpad : ∀ en ∈ out, en.paddingLeft = (en.level - 2) * 75 := by
    intro en hen
    rw [hout] at hen
    rcases List.mem_map.mp hen with ⟨it, _, hit⟩
    rw [← hit]
    rfl
  refine ⟨hpad, ?_, ?_⟩
  · intro e1 h1 e2 h2 hl1 hl2
    rw [hpad e1 h1, hpad e2 h2, hl1, hl2]
    decide
  · intro e1 h1 e2 h2 hl
    rw [hpad e1 h1, hpad e2 h2, hl]

/-- Witness for C8 on a two-entry rendering with one level-2 and one
level-3 heading. -/
theorem C8_indentation_proportional_witness :
    (∀ en ∈ [renderEntry "" { id := "a", text := "A", level := 2 },
             renderEntry "" { id := "b", text := "B", level := 3 }],
      en.paddingLeft = (en.level - 2) * 75) ∧
    (∀ e1 ∈ [renderEntry "" { id := "a", text := "A", level := 2 },
             renderEntry "" { id := "b", text := "B", level := 3 }],
      ∀ e2 ∈ [renderEntry "" { id := "a", text := "A", level := 2 },
              renderEntry "" { id := "b", text := "B", level := 3 }],
      e1.level = 3 → e2.level = 2 → e1.paddingLeft > e2.paddingLeft) ∧
    (∀ e1 ∈ [renderEntry "" { id := "a", text := "A", level := 2 },
             renderEntry "" { id := "b", text := "B", level := 3 }],
      ∀ e2 ∈ [renderEntry "" { id := "a", text := "A", level := 2 },
              renderEntry "" { id := "b", text := "B", level := 3 }],
      e1.level = e2.level → e1.paddingLeft = e2.paddingLeft) :=
  C8_indentation_proportional
    [{ id := "a", text := "A", level := 2 }, { id := "b", text := "B", level := 3 }] ""
    [renderEntry "" { id := "a", text := "A", level := 2 },
     renderEntry "" { id := "b", text := "B", level := 3 }] rfl

/-! Lemmas about `slugify`. -/

theorem noDD_cons (c : Char) (t : List Char) :
    noDD (c :: t) = ((!(c == '-') || headND t) && noDD t) := rfl

theorem headND_cons (c : Char) (t : List Char) :
    headND (c :: t) = !(c == '-') := rfl

theorem lastND_cons_cons (c d : Char) (t : List Char) :
    lastND (c :: d :: t) = lastND (d :: t) := rfl

theorem stripTrail_cons_cons (c d : Char) (t : List Char) :
    stripTrail (c :: d :: t) = c :: stripTrail (d :: t) := rfl

theorem dropLeadDash_cons (c : Char) (t : List Char) :
    dropLeadDash (c :: t) = if (c == '-') = true then t else c :: t := rfl

theorem jsIsAlnumLower_ne_dash (c : Char) (h : jsIsAlnumLower c = true) :
    (c == '-') = false := by
  by_cases hc : c = '-'
  · subst hc
    exact absurd h (by decide)
  · simpa using hc

/-- Every character emitted by the collapse is a slug character. -/
theorem collapseAux_all (l : List Char) :
    ∀ b, ((collapseAux l b).all isSlugChar) = true := by
  induction l with
  | nil => intro b; rfl
  | cons c cs ih =>
    intro b
    unfold collapseAux
    by_cases hc : jsIsAlnumLower c = true
    · rw [if_pos hc, List.all_cons, ih false]
      simp [isSlugChar, hc]
    · rw [if_neg hc]
      cases b with
      | true => simpa using ih true
      | false =>
        simp only [Bool.false_eq_true, if_false]
        rw [List.all_cons, ih true]
        decide


/-- The collapse never emits two adjacent hyphens, and when it starts
inside a run its output does not begin with a hyphen. -/
theorem collapseAux_noDD (l : List Char) :
    ∀ b, noDD (collapseAux l b) = true ∧
      (b = true → headND (collapseAux l b) = true) := by
  induction l with
  | nil => intro b; exact ⟨rfl, fun _ => rfl⟩
  | cons c cs ih =>
    intro b
    unfold collapseAux
    by_cases hc : jsIsAlnumLower c = true
    · rw [if_pos hc]
      have hdash := jsIsAlnumLower_ne_dash c hc
      constructor
      · rw [noDD_cons, hdash, (ih false).1]
        rfl
      · intro _
        rw [headND_cons, hdash]
        rfl
    · rw [if_neg hc]
      cases b with
      | true =>
        simp only [if_true]
        exact ⟨(ih true).1, fun _ => (ih true).2 rfl⟩
      | false =>
        simp only [Bool.false_eq_true, if_false]
        constructor
        · rw [noDD_cons, (ih true).1, (ih true).2 rfl]
          decide
        · intro hfalse
          cases hfalse

theorem dropLeadDash_all (l : List Char) (h : l.all isSlugChar = true) :
    (dropLeadDash l).all isSlugChar = true := by
  cases l with
  | nil => rfl
  | cons c t =>
    rw [List.all_cons, Bool.and_eq_true] at h
    rw [dropLeadDash_cons]
    by_cases hc : (c == '-') = true
    · rw [if_pos hc]; exact h.2
    · rw [if_neg hc, List.all_cons, Bool.and_eq_true]
      exact h

theorem dropLeadDash_noDD (l : List Char) (h : noDD l = true) :
    noDD (dropLeadDash l) = true := by
  cases l with
  | nil => rfl
  | cons c t =>
    rw [noDD_cons, Bool.and_eq_true] at h
    rw [dropLeadDash_cons]
    by_cases hc : (c == '-') = true
    · rw [if_pos hc]; exact h.2
    · rw [if_neg hc, noDD_cons, Bool.and_eq_true]
      exact h

theorem dropLeadDash_headND (l : List Char) (h : noDD l = true) :
    headND (dropLeadDash l) = true := by
  cases l with
  | nil => rfl
  | cons c t =>
    rw [noDD_cons, Bool.and_eq_true] at h
    rw [dropLeadDash_cons]
    by_cases hc : (c == '-') = true
    · rw [if_pos hc]
      have h1 := h.1
      rw [hc] at h1
      simpa using h1
    · rw [if_neg hc, headND_cons]
      simp only [Bool.not_eq_true] at hc
      rw [hc]
      rfl

theorem stripTrail_all (l : List Char) :
    l.all isSlugChar = true → (stripTrail l).all isSlugChar = true := by
  induction l with
  | nil => intro _; rfl
  | cons c t ih =>
    intro h
    cases t with
    | nil =>
      unfold stripTrail
      by_cases hc : (c == '-') = true
      · rw [if_pos hc]; rfl
      · rw [if_neg hc]; exact h
    | cons d t2 =>
      rw [List.all_cons, Bool.and_eq_true] at h
      rw [stripTrail_cons_cons, List.all_cons, Bool.and_eq_true]
      exact ⟨h.1, ih h.2⟩

theorem stripTrail_headND (l : List Char) (h : headND l = true) :
    headND (stripTrail l) = true := by
  cases l with
  | nil => rfl
  | cons c t =>
    cases t with
    | nil =>
      unfold stripTrail
      by_cases hc : (c == '-') = true
      · rw [if_pos hc]; rfl
      · rw [if_neg hc]; exact h
    | cons d t2 =>
      rw [stripTrail_cons_cons]
      exact h

theorem stripTrail_noDD (l : List Char) :
    noDD l = true → noDD (stripTrail l) = true := by
  induction l with
  | nil => intro _; rfl
  | cons c t ih =>
    intro h
    cases t with
    | nil =>
      unfold stripTrail
      by_cases hc : (c == '-') = true
      · rw [if_pos hc]; rfl
      · rw [if_neg hc]; exact h
    | cons d t2 =>
      rw [noDD_cons, Bool.and_eq_true] at h
      rw [stripTrail_cons_cons, noDD_cons, Bool.and_eq_true]
      refine ⟨?_, ih h.2⟩
      by_cases hc : (c == '-') = true
      · have hh : headND (d :: t2) = true := by
          have h1 := h.1
          rw [hc] at h1
          simpa using h1
        rw [stripTrail_headND _ hh]
        simp
      · simp only [Bool.not_eq_true] at hc
        rw [hc]
        rfl

theorem stripTrail_lastND (l : List Char) :
    noDD l = true → lastND (stripTrail l) = true := by
  induction l with
  | nil => intro _; rfl
  | cons c t ih =>
    intro h
    cases t with
    | nil =>
      unfold stripTrail
      by_cases hc : (c == '-') = true
      · rw [if_pos hc]; rfl
      · simp only [Bool.not_eq_true] at hc
        rw [if_neg (by rw [hc]; intro hx; cases hx)]
        show (!(c == '-')) = true
        rw [hc]
        rfl
    | cons d t2 =>
      rw [noDD_cons, Bool.and_eq_true] at h
      cases t2 with
      | nil =>
        rw [stripTrail_cons_cons]
        by_cases hd : (d == '-') = true
        · have hst : stripTrail [d] = [] := by
            unfold stripTrail
            rw [if_pos hd]
          rw [hst]
          have h1 := h.1
          rw [headND_cons, hd] at h1
          simp only [Bool.not_true, Bool.or_false] at h1
          show (!(c == '-')) = true
          exact h1
        · have hst : stripTrail [d] = [d] := by
            unfold stripTrail
            rw [if_neg hd]
          rw [hst, lastND_cons_cons]
          simp only [Bool.not_eq_true] at hd
          show (!(d == '-')) = true
          rw [hd]
          rfl
      | cons e t3 =>
        show lastND (stripTrail (d :: e :: t3)) = true
        exact ih h.2

/-- Characters fixed by `Char.toLower`: anything outside the ASCII range
of uppercase letters, in particular every slug character. -/
theorem toLower_fix (c : Char) (h : isSlugChar c = true) : c.toLower = c := by
  show (if c.toNat >= 65 ∧ c.toNat <= 90 then Char.ofNat (c.toNat + 32) else c) = c
  split
  · exfalso
    rename_i hcond
    rw [isSlugChar, Bool.or_eq_true] at h
    rcases h with h | h
    · rw [jsIsAlnumLower, Bool.or_eq_true] at h
      rcases h with h | h <;>
      · simp only [Bool.and_eq_true, decide_eq_true_eq] at h
        omega
    · have hce : c = '-' := by simpa using h
      subst hce
      exact absurd hcond (by decide)
  · rfl

theorem map_toLower_fix (l : List Char) :
    l.all isSlugChar = true → l.map Char.toLower = l := by
  induction l with
  | nil => intro _; rfl
  | cons c t ih =>
    intro h
    rw [List.all_cons, Bool.and_eq_true] at h
    rw [List.map_cons, toLower_fix c h.1, ih h.2]

/-- The collapse fixes any well-formed slug fragment. -/
theorem collapseAux_fix (l : List Char) :
    l.all isSlugChar = true → noDD l = true → lastND l = true →
    (collapseAux l false = l ∧ (headND l = true → collapseAux l true = l)) := by
  induction l with
  | nil => intro _ _ _; exact ⟨rfl, fun _ => rfl⟩
  | cons c t ih =>
    intro hall hnd hlast
    rw [List.all_cons, Bool.and_eq_true] at hall
    rw [noDD_cons, Bool.and_eq_true] at hnd
    by_cases hc : jsIsAlnumLower c = true
    · have hlt : lastND t = true := by
        cases t with
        | nil => rfl
        | cons d t2 => exact hlast
      have ht := (ih hall.2 hnd.2 hlt).1
      have heq : ∀ b, collapseAux (c :: t) b = c :: t := by
        intro b
        unfold collapseAux
        rw [if_pos hc, ht]
      exact ⟨heq false, fun _ => heq true⟩
    · have hcd : (c == '-') = true := by
        have h1 := hall.1
        rw [isSlugChar, Bool.or_eq_true] at h1
        rcases h1 with h1 | h1
        · exact absurd h1 hc
        · exact h1
      have hce : c = '-' := by simpa using hcd
      constructor
      · cases t with
        | nil =>
          exfalso
          have hl : (!(c == '-')) = true := hlast
          rw [hcd] at hl
          cases hl
        | cons d t2 =>
          have hht : headND (d :: t2) = true := by
            have h1 := hnd.1
            rw [hcd] at h1
            simpa using h1
          have ht := (ih hall.2 hnd.2 hlast).2 hht
          unfold collapseAux
          rw [if_neg hc]
          simp only [Bool.false_eq_true, if_false]
          rw [ht, hce]
      · intro hh
        exfalso
        rw [headND_cons, hcd] at hh
        cases hh

theorem dropLeadDash_fix (l : List Char) (h : headND l = true) :
    dropLeadDash l = l := by
  cases l with
  | nil => rfl
  | cons c t =>
    have hc : ¬((c == '-') = true) := by
      intro hc
      rw [headND_cons, hc] at h
      cases h
    rw [dropLeadDash_cons, if_neg hc]

theorem stripTrail_fix (l : List Char) :
    lastND l = true → stripTrail l = l := by
  induction l with
  | nil => intro _; rfl
  | cons c t ih =>
    intro h
    cases t with
    | nil =>
      have hc : ¬((c == '-') = true) := by
        intro hc
        have hl : (!(c == '-')) = true := h
        rw [hc] at hl
        cases hl
      unfold stripTrail
      rw [if_neg hc]
    | cons d t2 =>
      rw [stripTrail_cons_cons, ih h]

/-- C10: `slugify` is a pure function whose output consists only of
lowercase ASCII letters, digits and single hyphens, with no hyphen at
either end (possibly the empty string), and it is idempotent. -/
theorem C10_slugify_shape_idempotent :
    ∀ s : List Char, isSlug (slugify s) = true ∧ slugify (slugify s) = slugify s := by
  intro s
  have hCall : ((collapseNonAlnum (s.map Char.toLower)).all isSlugChar) = true :=
    collapseAux_all _ false
  have hCnd : noDD (collapseNonAlnum (s.map Char.toLower)) = true :=
    (collapseAux_noDD _ false).1
  have hDall := dropLeadDash_all _ hCall
  have hDnd := dropLeadDash_noDD _ hCnd
  have hDhd := dropLeadDash_headND _ hCnd
  have hs : slugify s = stripTrail (dropLeadDash (collapseNonAlnum (s.map Char.toLower))) :=
    rfl
  have hall : (slugify s).all isSlugChar = true := by
    rw [hs]; exact stripTrail_all _ hDall
  have hnd : noDD (slugify s) = true := by
    rw [hs]; exact stripTrail_noDD _ hDnd
  have hhd : headND (slugify s) = true := by
    rw [hs]; exact stripTrail_headND _ hDhd
  have hlast : lastND (slugify s) = true := by
    rw [hs]; exact stripTrail_lastND _ hDnd
  constructor
  · unfold isSlug
    rw [hall, hnd, hhd, hlast]
    rfl
  · show stripEnds (collapseNonAlnum ((slugify s).map Char.toLower)) = slugify s
    rw [map_toLower_fix _ hall]
    have hcoll : collapseNonAlnum (slugify s) = slugify s :=
      (collapseAux_fix (slugify s) hall hnd hlast).1
    rw [hcoll]
    show stripTrail (dropLeadDash (slugify s)) = slugify s
    rw [dropLeadDash_fix _ hhd, stripTrail_fix _ hlast]

end TechnicalBlog
